import Mathlib

/-!
Verification of the CAN-bus transport layer of the OpenMRN repository
(CAN frame dispatcher, message write/fragmentation flow, hub forwarding,
CLI harness, CAN device driver) against its natural-language specification.

The repository snapshot contains the test suite (`test/tests/async_if_can_test.cc`),
the hub application (`applications/js_hub/.../main.cxx`) and the CAN device
driver (`freertos_drivers/arduino/Can.hxx`).  The dispatcher, write flow and
hub implementations themselves are exercised only through their tests and
callers, so those components are modelled from the specification, with the
concrete behaviour pinned down by the tests where the tests speak.
-/

namespace OpenMRN

/-- A raw CAN frame: 29-bit extended identifier and up to 8 data bytes.
Mirrors `struct can_frame` as used by the tests (EFF frames, `can_dlc` = data
length, data bytes in order). -/
structure CanFrame where
  id : Nat
  data : List Nat
  deriving DecidableEq, Repr

/-- Modelled from the spec: a dispatch table entry `(identifier, mask, handler)`
of the CAN frame dispatcher (`register_handler(identifier, mask, handler)`);
the handler is identified by an opaque tag. -/
structure DispatchEntry where
  id : Nat
  mask : Nat
  handler : Nat
  deriving DecidableEq, Repr

/-- Modelled from the spec: an entry matches a frame identifier iff
`(frame.id & mask) == (identifier & mask)`. -/
def entryMatches (e : DispatchEntry) (frameId : Nat) : Bool :=
  (frameId &&& e.mask) == (e.id &&& e.mask)

/-- Modelled from the spec: on an inbound frame the dispatcher invokes every
matching entry's handler, in registration order; the result is the ordered
list of entries that fire. -/
def dispatch (entries : List DispatchEntry) (frameId : Nat) : List DispatchEntry :=
  entries.filter (fun e => entryMatches e frameId)

/-- The concrete registration from `InjectFrameAndExpectHandler`:
identifier `0x195B4000`, mask `0x1FFFF000`, one handler. -/
def testEntry : DispatchEntry := ⟨0x195B4000, 0x1FFFF000, 1⟩

/-- C1: an entry fires iff `(frame.id & mask) == (identifier & mask)`; each
matching entry fires exactly once per frame (its multiplicity among the fired
entries equals its multiplicity among the registrations); and the handler
registered as `(0x195B4000, 0x1FFFF000)` fires for frame ids `0x195B432D`,
`0x195B4777`, `0x195B4222` and not for `0x195F4333`. -/
theorem dispatch_fires_iff_masked_match (entries : List DispatchEntry)
    (e : DispatchEntry) (frameId : Nat) (he : e ∈ entries) :
    (e ∈ dispatch entries frameId ↔ (frameId &&& e.mask) = (e.id &&& e.mask))
    ∧ (dispatch entries frameId).count e =
        (if (frameId &&& e.mask) = (e.id &&& e.mask) then entries.count e else 0)
    ∧ dispatch [testEntry] 0x195B432D = [testEntry]
    ∧ dispatch [testEntry] 0x195B4777 = [testEntry]
    ∧ dispatch [testEntry] 0x195B4222 = [testEntry]
    ∧ dispatch [testEntry] 0x195F4333 = [] := by
  refine ⟨?_, ?_, by decide, by decide, by decide, by decide⟩
  · simp [dispatch, List.mem_filter, entryMatches, he]
  · by_cases h : (frameId &&& e.mask) = (e.id &&& e.mask)
    · simp only [h, if_pos]
      rw [dispatch, List.count_filter]
      · simp [entryMatches, h]
    · simp only [h, if_neg, if_false]
      rw [List.count_eq_zero]
      intro hmem
      rw [dispatch, List.mem_filter] at hmem
      exact h (by simpa [entryMatches] using hmem.2)

/-- Witness for `dispatch_fires_iff_masked_match` at the concrete registration
and the first test frame. -/
theorem dispatch_fires_iff_masked_match_witness :
    testEntry ∈ [testEntry] ∧
      (testEntry ∈ dispatch [testEntry] 0x195B432D ↔
        (0x195B432D &&& testEntry.mask) = (testEntry.id &&& testEntry.mask)) :=
  ⟨by decide,
   (dispatch_fires_iff_masked_match [testEntry] testEntry 0x195B432D (by decide)).1⟩

/-! ## Message write / fragmentation flow

The write flow (`NMRAnetWriteFlow`, exercised by `WriteByMTI*` tests) is not in
the snapshot; it is modelled from the specification, with the identifier
layout, the addressed destination-byte layout and the continuation-marker
placement fixed by the frames the tests expect on the wire. -/

/-- MTI of an event report message (global), from `If::MTI_EVENT_REPORT`;
value pinned by the expected frame `:X195B4000N...;`. -/
def MTI_EVENT_REPORT : Nat := 0x5B4

/-- MTI of a protocol support inquiry (addressed), from
`If::MTI_PROTOCOL_SUPPORT_INQUIRY`; value pinned by `:X19828000N...;`. -/
def MTI_PROTOCOL_SUPPORT_INQUIRY : Nat := 0x828

/-- MTI of a datagram, from `If::MTI_DATAGRAM`. -/
def MTI_DATAGRAM : Nat := 0x1C48

/-- Modelled from the spec: an MTI is addressed (destination id present) when
its address-present bit is set; the two concrete MTIs of the tests pin the bit
to `0x8` (`0x5B4` global, `0x828` addressed). -/
def isAddressed (mti : Nat) : Bool := (mti &&& 0x8) != 0

/-- Modelled from the spec: datagram-class MTIs are excluded from the write
flow (`WriteByMTIIgnoreDatagram`). -/
def isExcludedMTI (mti : Nat) : Bool := mti == MTI_DATAGRAM

/-- Modelled from the spec: the 29-bit identifier of an outbound message
frame encodes the MTI and the 12-bit source alias; the constant prefix is
pinned by the test frames (`0x195B4000` for MTI `0x5B4`, source alias 0). -/
def canIdFor (mti src : Nat) : Nat := 0x19000000 ||| (mti <<< 12) ||| (src &&& 0xFFF)

/-- Continuation markers carried by addressed frames, pinned by the
test frames: `0x0` only frame, `0x1` first, `0x3` middle, `0x2` last. -/
def markerOnly : Nat := 0x0

/-- First-frame continuation marker. -/
def markerFirst : Nat := 0x1

/-- Middle-frame continuation marker. -/
def markerMiddle : Nat := 0x3

/-- Last-frame continuation marker. -/
def markerLast : Nat := 0x2

/-- Payload bytes carried per addressed frame after the two destination-id
bytes: a CAN frame holds 8 data bytes, 2 are the destination, leaving 6
(pinned by the test's middle frames, e.g. `:X19828000N3000363738393031;`). -/
def addressedCapacity : Nat := 6

/-- Fuel-driven worker for `splitChunks`; the fuel is an upper bound on the
payload length, so the fallback branch is never taken from `splitChunks`. -/
def splitChunksAux (fuel : Nat) (payload : List Nat) : List (List Nat) :=
  match fuel with
  | 0 => [payload]
  | fuel + 1 =>
    if payload.length ≤ addressedCapacity then [payload]
    else payload.take addressedCapacity :: splitChunksAux fuel (payload.drop addressedCapacity)

/-- Split a payload into chunks of `addressedCapacity` bytes; the final chunk
holds the (nonempty, when the payload is nonempty) remainder. -/
def splitChunks (payload : List Nat) : List (List Nat) :=
  splitChunksAux payload.length payload

/-- The continuation-marker sequence for `k` frames: a lone `only` marker, or
first, `k-2` middles, last. -/
def markerSeq (k : Nat) : List Nat :=
  if k ≤ 1 then [markerOnly]
  else markerFirst :: (List.replicate (k - 2) markerMiddle ++ [markerLast])

/-- The two destination bytes of an addressed frame, with the continuation
marker in the high nibble of the first byte: `(marker << 4) | dst_hi, dst_lo`. -/
def destBytes (marker dst : Nat) : List Nat :=
  [(marker <<< 4) ||| ((dst >>> 8) &&& 0xF), dst &&& 0xFF]

/-- Modelled from the spec: fragmentation of an addressed message.  Every
frame carries the destination bytes (with the continuation marker) followed by
up to `addressedCapacity` payload bytes; frames are emitted in order. -/
def fragmentAddressed (mti src dst : Nat) (payload : List Nat) : List CanFrame :=
  List.zipWith (fun m c => ⟨canIdFor mti src, destBytes m dst ++ c⟩)
    (markerSeq (splitChunks payload).length) (splitChunks payload)

/-- Modelled from the spec: the reassembly dual for addressed frames drops the
two destination bytes of each frame and concatenates the rest, in order. -/
def reassembleAddressed (frames : List CanFrame) : List Nat :=
  (frames.map (fun f => f.data.drop 2)).flatten

/-- Result of running the write flow on one outgoing message: the ordered
frames handed to the outbound hub, the message looped back to the local
inbound message dispatcher (MTI and payload) if any, and whether the flow
signalled completion through its notifier. -/
structure WriteResult where
  frames : List CanFrame
  loopback : Option (Nat × List Nat)
  completed : Bool
  deriving DecidableEq, Repr

/-- Modelled from the spec: `WriteFlow::WriteGlobalMessage(mti, src, payload)`.
Excluded (datagram-class) MTIs emit nothing and still complete; addressed MTIs
fragment with the destination in the first two data bytes; global MTIs emit a
single frame of raw payload bytes and loop the message back to the local
dispatcher. -/
def writeGlobalMessage (mti src dst : Nat) (payload : List Nat) : WriteResult :=
  if isExcludedMTI mti then ⟨[], none, true⟩
  else if isAddressed mti then ⟨fragmentAddressed mti src dst payload, none, true⟩
  else ⟨[⟨canIdFor mti src, payload⟩], some (mti, payload), true⟩

/-- The 20-byte payload `"01234567890123456789"` of
`WriteByMTIAddressedFragmented`, as ASCII bytes. -/
def payload20 : List Nat :=
  [0x30, 0x31, 0x32, 0x33, 0x34, 0x35, 0x36, 0x37, 0x38, 0x39,
   0x30, 0x31, 0x32, 0x33, 0x34, 0x35, 0x36, 0x37, 0x38, 0x39]

/-- The four frames the test expects for the 20-byte addressed write. -/
def expectedFrames20 : List CanFrame :=
  [⟨0x19828000, [0x10, 0x00, 0x30, 0x31, 0x32, 0x33, 0x34, 0x35]⟩,
   ⟨0x19828000, [0x30, 0x00, 0x36, 0x37, 0x38, 0x39, 0x30, 0x31]⟩,
   ⟨0x19828000, [0x30, 0x00, 0x32, 0x33, 0x34, 0x35, 0x36, 0x37]⟩,
   ⟨0x19828000, [0x20, 0x00, 0x38, 0x39]⟩]

/-- The continuation marker actually carried by an emitted frame: the high
nibble of the frame's first data byte. -/
def CanFrame.markerOf (f : CanFrame) : Nat := (f.data.headD 0) >>> 4

/-- Uppercase hexadecimal digit for a value below 16. -/
def hexDigit (n : Nat) : Char := if n < 10 then Char.ofNat (48 + n) else Char.ofNat (55 + n)

/-- Two uppercase hex digits of one byte. -/
def hexByte (b : Nat) : List Char := [hexDigit (b / 16 % 16), hexDigit (b % 16)]

/-- Eight uppercase hex digits of a 29-bit identifier, most significant first. -/
def hex8 (n : Nat) : List Char :=
  (List.range 8).map (fun i => hexDigit ((n >>> (28 - 4 * i)) &&& 0xF))

/-- The GridConnect line of an extended data frame:
`:X` + 8 hex id digits + `N` + 2 hex digits per data byte + `;`. -/
def gcEncode (f : CanFrame) : String :=
  String.mk (':' :: 'X' :: (hex8 f.id ++ 'N' :: ((f.data.map hexByte).flatten ++ [';'])))

/-! ### Fragmentation lemmas -/

theorem splitChunksAux_flatten (fuel : Nat) :
    ∀ payload : List Nat, payload.length ≤ fuel →
      (splitChunksAux fuel payload).flatten = payload := by
  induction fuel with
  | zero =>
    intro payload h
    simp [splitChunksAux]
  | succ n ih =>
    intro payload h
    rw [splitChunksAux]
    by_cases hle : payload.length ≤ addressedCapacity
    · simp [hle]
    · simp only [hle, if_false, List.flatten_cons]
      rw [ih (payload.drop addressedCapacity)
        (by simp only [List.length_drop, addressedCapacity] at hle h ⊢; omega)]
      exact List.take_append_drop _ _

theorem splitChunks_flatten (payload : List Nat) :
    (splitChunks payload).flatten = payload :=
  splitChunksAux_flatten payload.length payload le_rfl

theorem splitChunksAux_length (fuel : Nat) :
    ∀ payload : List Nat, payload.length ≤ fuel → 1 ≤ payload.length →
      (splitChunksAux fuel payload).length =
        (payload.length + (addressedCapacity - 1)) / addressedCapacity := by
  induction fuel with
  | zero =>
    intro payload h h1
    omega
  | succ n ih =>
    intro payload h h1
    rw [splitChunksAux]
    by_cases hle : payload.length ≤ addressedCapacity
    · simp only [hle, if_true, List.length_singleton]
      simp only [addressedCapacity] at hle ⊢
      omega
    · simp only [hle, if_false, List.length_cons]
      rw [ih (payload.drop addressedCapacity)
        (by simp only [List.length_drop, addressedCapacity] at hle h ⊢; omega)
        (by simp only [List.length_drop, addressedCapacity] at hle h ⊢; omega)]
      simp only [List.length_drop, addressedCapacity] at *
      omega

theorem splitChunks_length (payload : List Nat) (h1 : 1 ≤ payload.length) :
    (splitChunks payload).length =
      (payload.length + (addressedCapacity - 1)) / addressedCapacity :=
  splitChunksAux_length payload.length payload le_rfl h1

theorem markerSeq_length (k : Nat) (h : 1 ≤ k) : (markerSeq k).length = k := by
  rw [markerSeq]
  by_cases hk : k ≤ 1
  · simp only [hk, if_true, List.length_singleton]
    omega
  · simp only [hk, if_false, List.length_cons, List.length_append,
      List.length_replicate, List.length_singleton, List.length_nil]
    omega

theorem markerSeq_lt_four (k : Nat) : ∀ m ∈ markerSeq k, m < 4 := by
  intro m hm
  rw [markerSeq] at hm
  by_cases hk : k ≤ 1
  · simp only [hk, if_true, List.mem_singleton] at hm
    simp [hm, markerOnly]
  · simp only [hk, if_false, List.mem_cons, List.mem_append,
      List.mem_replicate, List.mem_singleton] at hm
    rcases hm with h | ⟨_, h⟩ | h | h
    · simp [h, markerFirst]
    · simp [h, markerMiddle]
    · simp [h, markerLast]
    · exact absurd h (List.not_mem_nil m)

theorem nibble_pack_unpack : ∀ m < 4, ∀ d < 16, ((m <<< 4) ||| d) >>> 4 = m := by decide

theorem destBytes_marker (m dst : Nat) (hm : m < 4) :
    ((destBytes m dst).headD 0) >>> 4 = m := by
  have hd : (dst >>> 8) &&& 0xF < 16 :=
    Nat.lt_succ_of_le (Nat.and_le_right)
  simpa [destBytes] using nibble_pack_unpack m hm ((dst >>> 8) &&& 0xF) hd

theorem map_markerOf_zipWith (dst id0 : Nat) :
    ∀ (ms : List Nat) (cs : List (List Nat)), (∀ m ∈ ms, m < 4) →
      ms.length = cs.length →
      (List.zipWith (fun m c => CanFrame.mk id0 (destBytes m dst ++ c)) ms cs).map
        CanFrame.markerOf = ms := by
  intro ms
  induction ms with
  | nil => intro cs _ _; simp
  | cons m ms ih =>
    intro cs hlt hlen
    cases cs with
    | nil => simp at hlen
    | cons c cs =>
      simp only [List.zipWith_cons_cons, List.map_cons, List.cons.injEq]
      constructor
      · show ((destBytes m dst ++ c).headD 0) >>> 4 = m
        have hd := destBytes_marker m dst (hlt m (by simp))
        simpa [destBytes] using hd
      · exact ih cs (fun x hx => hlt x (by simp [hx])) (by simpa using hlen)

theorem map_drop2_zipWith (dst id0 : Nat) :
    ∀ (ms : List Nat) (cs : List (List Nat)), ms.length = cs.length →
      (List.zipWith (fun m c => CanFrame.mk id0 (destBytes m dst ++ c)) ms cs).map
        (fun f => f.data.drop 2) = cs := by
  intro ms
  induction ms with
  | nil =>
    intro cs h
    cases cs with
    | nil => simp
    | cons c cs => simp at h
  | cons m ms ih =>
    intro cs hlen
    cases cs with
    | nil => simp at hlen
    | cons c cs =>
      simp only [List.zipWith_cons_cons, List.map_cons, List.cons.injEq]
      exact ⟨by simp [destBytes], ih cs (by simpa using hlen)⟩

theorem splitChunks_pos (p : List Nat) : 1 ≤ (splitChunks p).length := by
  rw [splitChunks]
  cases h : p.length with
  | zero => simp [splitChunksAux]
  | succ n =>
    rw [splitChunksAux]
    by_cases hle : p.length ≤ addressedCapacity <;> simp [hle]

theorem fragmentAddressed_length (mti src dst : Nat) (p : List Nat) :
    (fragmentAddressed mti src dst p).length = (splitChunks p).length := by
  rw [fragmentAddressed, List.length_zipWith,
    markerSeq_length _ (splitChunks_pos p), Nat.min_self]

/-- C2 counterexample: on the test's own 20-byte addressed write, every
continuation frame carries 6 payload bytes after the two destination bytes,
not 5; the emitted frames are exactly the four frames the test expects. -/
theorem addressed_continuation_carries_six_not_five :
    ((writeGlobalMessage MTI_PROTOCOL_SUPPORT_INQUIRY 0 0 payload20).frames.map
        (fun f => (f.data.drop 2).length)) = [6, 6, 6, 2]
    ∧ (writeGlobalMessage MTI_PROTOCOL_SUPPORT_INQUIRY 0 0 payload20).frames
        = expectedFrames20
    ∧ ¬ ((6 : Nat) ≤ 5) := by decide

/-- C2 (amended): for an addressed non-excluded message of payload length
L ≥ 1, the write flow emits exactly ⌈L / 6⌉ frames (6 payload bytes per
addressed frame, after the 2 destination-id bytes), and reassembling the frame
sequence yields the original payload bytes unchanged; the 20-byte example
yields 4 frames. -/
theorem fragmentation_roundtrip (mti src dst : Nat) (p : List Nat)
    (haddr : isAddressed mti = true) (hexc : isExcludedMTI mti = false)
    (h1 : 1 ≤ p.length) :
    (writeGlobalMessage mti src dst p).frames.length
      = (p.length + (addressedCapacity - 1)) / addressedCapacity
    ∧ reassembleAddressed ((writeGlobalMessage mti src dst p).frames) = p
    ∧ (writeGlobalMessage MTI_PROTOCOL_SUPPORT_INQUIRY 0 0 payload20).frames.length
        = 4 := by
  have hframes : (writeGlobalMessage mti src dst p).frames
      = fragmentAddressed mti src dst p := by
    simp [writeGlobalMessage, hexc, haddr]
  refine ⟨?_, ?_, by decide⟩
  · rw [hframes, fragmentAddressed_length, splitChunks_length p h1]
  · rw [hframes, fragmentAddressed, reassembleAddressed,
      map_drop2_zipWith dst (canIdFor mti src) _ _
        (markerSeq_length _ (splitChunks_pos p)),
      splitChunks_flatten]

/-- Witness for `fragmentation_roundtrip` at the test's 20-byte addressed
write. -/
theorem fragmentation_roundtrip_witness :
    isAddressed MTI_PROTOCOL_SUPPORT_INQUIRY = true
    ∧ isExcludedMTI MTI_PROTOCOL_SUPPORT_INQUIRY = false
    ∧ 1 ≤ payload20.length
    ∧ (writeGlobalMessage MTI_PROTOCOL_SUPPORT_INQUIRY 0 0 payload20).frames.length
        = (payload20.length + (addressedCapacity - 1)) / addressedCapacity :=
  ⟨by decide, by decide, by decide,
   (fragmentation_roundtrip MTI_PROTOCOL_SUPPORT_INQUIRY 0 0 payload20
      (by decide) (by decide) (by decide)).1⟩

/-- C3 counterexample: on the 20-byte addressed write, the first and last
emitted frames carry identical identifiers (hence identical identifier low
bits) but distinct continuation markers, so no decoding of the identifier's
low bits can recover the per-frame marker: the marker is not embedded in the
identifier's low bits. -/
theorem marker_not_in_identifier_low_bits :
    ¬ ∃ dec : Nat → Nat,
        ∀ f ∈ (writeGlobalMessage MTI_PROTOCOL_SUPPORT_INQUIRY 0 0 payload20).frames,
          dec (f.id % 4) = CanFrame.markerOf f := by
  rintro ⟨dec, hdec⟩
  have hmem0 : (⟨0x19828000, [0x10, 0x00, 0x30, 0x31, 0x32, 0x33, 0x34, 0x35]⟩ : CanFrame)
      ∈ (writeGlobalMessage MTI_PROTOCOL_SUPPORT_INQUIRY 0 0 payload20).frames := by
    decide
  have hmem3 : (⟨0x19828000, [0x20, 0x00, 0x38, 0x39]⟩ : CanFrame)
      ∈ (writeGlobalMessage MTI_PROTOCOL_SUPPORT_INQUIRY 0 0 payload20).frames := by
    decide
  have h0 := hdec _ hmem0
  have h3 := hdec _ hmem3
  have e0 : CanFrame.markerOf
      ⟨0x19828000, [0x10, 0x00, 0x30, 0x31, 0x32, 0x33, 0x34, 0x35]⟩ = 1 := by decide
  have e3 : CanFrame.markerOf ⟨0x19828000, [0x20, 0x00, 0x38, 0x39]⟩ = 2 := by decide
  have hid : (0x19828000 : Nat) % 4 = 0 := by norm_num
  simp only [e0, e3, hid] at h0 h3
  omega

/-- C3 (amended): each emitted frame of a fragmented addressed message carries
its 2-bit continuation marker in the high nibble of the first data byte (the
destination high byte); the frames are emitted in strict order with marker
sequence first, (N−2) middles, last; and the 20-byte example produces exactly
the four GridConnect frames `:X19828000N1000303132333435;`,
`:X19828000N3000363738393031;`, `:X19828000N3000323334353637;`,
`:X19828000N20003839;`. -/
theorem marker_sequence_first_middles_last (mti src dst : Nat) (p : List Nat)
    (hlen : addressedCapacity < p.length) :
    (fragmentAddressed mti src dst p).map CanFrame.markerOf
      = markerFirst ::
          (List.replicate ((fragmentAddressed mti src dst p).length - 2) markerMiddle
            ++ [markerLast])
    ∧ (writeGlobalMessage MTI_PROTOCOL_SUPPORT_INQUIRY 0 0 payload20).frames
        = expectedFrames20
    ∧ expectedFrames20.map gcEncode
        = [":X19828000N1000303132333435;", ":X19828000N3000363738393031;",
           ":X19828000N3000323334353637;", ":X19828000N20003839;"] := by
  have hk : 2 ≤ (splitChunks p).length := by
    rw [splitChunks_length p (by omega)]
    simp only [addressedCapacity] at hlen ⊢
    omega
  refine ⟨?_, by decide, by decide⟩
  rw [fragmentAddressed_length, fragmentAddressed,
    map_markerOf_zipWith dst (canIdFor mti src) _ _ (markerSeq_lt_four _)
      (markerSeq_length _ (by omega)),
    markerSeq, if_neg (by omega)]

/-- Witness for `marker_sequence_first_middles_last` at the 20-byte payload. -/
theorem marker_sequence_first_middles_last_witness :
    addressedCapacity < payload20.length
    ∧ (fragmentAddressed MTI_PROTOCOL_SUPPORT_INQUIRY 0 0 payload20).map
        CanFrame.markerOf
      = markerFirst ::
          (List.replicate
              ((fragmentAddressed MTI_PROTOCOL_SUPPORT_INQUIRY 0 0 payload20).length - 2)
              markerMiddle ++ [markerLast]) :=
  ⟨by decide,
   (marker_sequence_first_middles_last MTI_PROTOCOL_SUPPORT_INQUIRY 0 0 payload20
      (by decide)).1⟩

/-- C4: writing a datagram-class (excluded) MTI through the write flow emits
zero frames on the wire, does not loop anything back, and still signals
completion via the flow's notifier; no error is raised. -/
theorem datagram_write_emits_no_frames (src dst : Nat) (p : List Nat) :
    (writeGlobalMessage MTI_DATAGRAM src dst p).frames = []
    ∧ (writeGlobalMessage MTI_DATAGRAM src dst p).loopback = none
    ∧ (writeGlobalMessage MTI_DATAGRAM src dst p).completed = true := by
  refine ⟨?_, ?_, ?_⟩ <;> simp [writeGlobalMessage, isExcludedMTI]

/-- C5: every global (non-addressed, non-excluded) message written through the
write flow is also delivered to the local inbound message dispatcher with the
same MTI and the same payload bytes, and a locally registered handler with
identifier 0 / mask 0 fires on it, just as for a message from another node. -/
theorem global_write_loopback (mti src dst h0 : Nat) (p : List Nat)
    (hglob : isAddressed mti = false) (hexc : isExcludedMTI mti = false) :
    (writeGlobalMessage mti src dst p).loopback = some (mti, p)
    ∧ dispatch [⟨0, 0, h0⟩] mti = [⟨0, 0, h0⟩] := by
  constructor
  · simp [writeGlobalMessage, hexc, hglob]
  · simp [dispatch, entryMatches]

/-- Witness for `global_write_loopback` at the loopback test's event report. -/
theorem global_write_loopback_witness :
    isAddressed MTI_EVENT_REPORT = false
    ∧ isExcludedMTI MTI_EVENT_REPORT = false
    ∧ (writeGlobalMessage MTI_EVENT_REPORT 0 0
          [1, 2, 3, 4, 5, 6, 7, 8]).loopback
        = some (MTI_EVENT_REPORT, [1, 2, 3, 4, 5, 6, 7, 8]) :=
  ⟨by decide, by decide,
   (global_write_loopback MTI_EVENT_REPORT 0 0 7 [1, 2, 3, 4, 5, 6, 7, 8]
      (by decide) (by decide)).1⟩

/-- C6: a global (destination-absent, non-excluded) message with payload of at
most 8 bytes produces exactly one frame whose identifier encodes the MTI and
source alias and whose data bytes are the raw payload, unmodified; the event
report with payload 01..08 yields the single frame
`:X195B4000N0102030405060708;`. -/
theorem global_single_frame (mti src dst : Nat) (p : List Nat)
    (hglob : isAddressed mti = false) (hexc : isExcludedMTI mti = false)
    (hlen : p.length ≤ 8) :
    (writeGlobalMessage mti src dst p).frames = [⟨canIdFor mti src, p⟩]
    ∧ (writeGlobalMessage MTI_EVENT_REPORT 0 0
          [1, 2, 3, 4, 5, 6, 7, 8]).frames.map gcEncode
        = [":X195B4000N0102030405060708;"] := by
  refine ⟨?_, by decide⟩
  simp [writeGlobalMessage, hexc, hglob]

/-- Witness for `global_single_frame` at the event-report test input. -/
theorem global_single_frame_witness :
    isAddressed MTI_EVENT_REPORT = false
    ∧ isExcludedMTI MTI_EVENT_REPORT = false
    ∧ ([1, 2, 3, 4, 5, 6, 7, 8] : List Nat).length ≤ 8
    ∧ (writeGlobalMessage MTI_EVENT_REPORT 0 0 [1, 2, 3, 4, 5, 6, 7, 8]).frames
        = [⟨canIdFor MTI_EVENT_REPORT 0, [1, 2, 3, 4, 5, 6, 7, 8]⟩] :=
  ⟨by decide, by decide, by decide,
   (global_single_frame MTI_EVENT_REPORT 0 0 [1, 2, 3, 4, 5, 6, 7, 8]
      (by decide) (by decide) (by decide)).1⟩

/-! ## Hub / port forwarding

The hub (`HubFlow`, `utils/Hub.hxx`) is not in the snapshot; only its caller
`JSHubPort` is.  The forwarding is modelled from the specification; ports are
identified by opaque tags. -/

/-- Modelled from the spec: a hub buffer carries opaque bytes plus the skip
tag (`skipMember_`) naming the port that must not receive it back. -/
structure HubBuffer where
  bytes : List Nat
  skipMember : Option Nat
  deriving DecidableEq, Repr

/-- Modelled from the spec: `HubFlow::send` delivers a buffer to every
registered port except the one whose identity equals the buffer's skip tag;
the result is the ordered list of recipient ports. -/
def hubSend (ports : List Nat) (b : HubBuffer) : List Nat :=
  ports.filter (fun p => !(some p == b.skipMember))

/-- `JSHubPort::recv`: inject bytes into the hub with the skip tag set to the
injecting port itself (`b->data()->skipMember_ = this`). -/
def jsHubPortRecv (ports : List Nat) (self : Nat) (s : List Nat) : List Nat :=
  hubSend ports ⟨s, some self⟩

/-- C7: a buffer is never delivered to the port whose identity equals its skip
tag; every other registered port receives it exactly as often as it is
registered (exactly once for a port registered once); and a port injecting
bytes through `JSHubPort::recv` never receives those bytes back. -/
theorem hub_loop_suppression (ports : List Nat) (b : HubBuffer)
    (q self : Nat) (s : List Nat) (hq : q ∈ ports) :
    (b.skipMember = some q → q ∉ hubSend ports b)
    ∧ (b.skipMember ≠ some q →
        q ∈ hubSend ports b ∧ (hubSend ports b).count q = ports.count q)
    ∧ self ∉ jsHubPortRecv ports self s := by
  refine ⟨?_, ?_, ?_⟩
  · intro hskip hmem
    rw [hubSend, List.mem_filter] at hmem
    simp [hskip] at hmem
  · intro hskip
    constructor
    · rw [hubSend, List.mem_filter]
      refine ⟨hq, ?_⟩
      simpa using fun h => hskip h.symm
    · rw [hubSend, List.count_filter]
      · have hne : some q ≠ b.skipMember := fun h => hskip h.symm
        simp [hne]
  · intro hmem
    rw [jsHubPortRecv, hubSend, List.mem_filter] at hmem
    simp at hmem

/-- Witness for `hub_loop_suppression`: three ports, a buffer skipping
port 2. -/
theorem hub_loop_suppression_witness :
    (2 : Nat) ∈ [1, 2, 3] ∧ (2 : Nat) ∉ hubSend [1, 2, 3] ⟨[0xAA], some 2⟩ :=
  ⟨by decide,
   (hub_loop_suppression [1, 2, 3] ⟨[0xAA], some 2⟩ 2 0 [0xAA] (by decide)).1 rfl⟩

/-! ## Write-flow allocation and cancellation

The frame write flow (`CanFrameWriteFlow`, exercised by `WriteMultipleFrames`:
`Send` emits the frame, `Cancel` returns the allocated flow unused) is not in
the snapshot; its lifecycle is modelled from the specification as a small-step
machine: an allocation is pending until it is either cancelled or starts
emitting its frames; emission proceeds frame by frame in order and only ends
in completion. -/

/-- Lifecycle phase of one write-flow allocation. -/
inductive WritePhase where
  | pending
  | emitting
  | done
  | cancelled
  deriving DecidableEq, Repr

/-- State of one write-flow allocation: its phase, the frames already queued
to the wire (in order), and the frames still to queue. -/
structure FlowState where
  phase : WritePhase
  emitted : List CanFrame
  remaining : List CanFrame
  deriving DecidableEq, Repr

/-- Modelled from the spec: the transitions of one allocation.  `cancel` is
only available while the allocation is pending (no frame queued yet); once
the first frame is queued the only transitions queue further frames in order
and then complete. -/
inductive FlowStep : FlowState → FlowState → Prop where
  | cancel (e r) : FlowStep ⟨.pending, e, r⟩ ⟨.cancelled, e, r⟩
  | start (e f r) : FlowStep ⟨.pending, e, f :: r⟩ ⟨.emitting, e ++ [f], r⟩
  | next (e f r) : FlowStep ⟨.emitting, e, f :: r⟩ ⟨.emitting, e ++ [f], r⟩
  | finish (e) : FlowStep ⟨.emitting, e, []⟩ ⟨.done, e, []⟩

/-- A freshly allocated write flow holding `frames` to send. -/
def initFlow (frames : List CanFrame) : FlowState := ⟨.pending, [], frames⟩

theorem flow_reach_invariant (frames : List CanFrame) (s : FlowState)
    (h : Relation.ReflTransGen FlowStep (initFlow frames) s) :
    s.emitted ++ s.remaining = frames
    ∧ ((s.phase = .pending ∨ s.phase = .cancelled) → s.emitted = [])
    ∧ (s.phase = .done → s.remaining = []) := by
  induction h with
  | refl => simp [initFlow]
  | tail _ hstep ih =>
    obtain ⟨ih1, ih2, ih3⟩ := ih
    cases hstep with
    | cancel e r => exact ⟨ih1, fun _ => ih2 (Or.inl rfl), by simp⟩
    | start e f r =>
      refine ⟨by simpa using ih1, by simp, by simp⟩
    | next e f r =>
      refine ⟨by simpa using ih1, by simp, by simp⟩
    | finish e => exact ⟨ih1, by simp, fun _ => rfl⟩

theorem flow_emitting_no_cancel (s t : FlowState)
    (h : Relation.ReflTransGen FlowStep s t)
    (hs : s.phase = .emitting ∨ s.phase = .done) :
    t.phase = .emitting ∨ t.phase = .done := by
  induction h with
  | refl => exact hs
  | tail _ hstep ih =>
    cases hstep with
    | cancel e r => simp at ih
    | start e f r => simp at ih
    | next e f r => simp
    | finish e => simp

theorem flow_emitting_completes (e r : List CanFrame) :
    ∃ t, Relation.ReflTransGen FlowStep ⟨.emitting, e, r⟩ t
      ∧ t.phase = .done ∧ t.emitted = e ++ r := by
  induction r generalizing e with
  | nil =>
    exact ⟨⟨.done, e, []⟩, Relation.ReflTransGen.single (FlowStep.finish e),
      rfl, by simp⟩
  | cons f r ih =>
    obtain ⟨t, hreach, hdone, hemit⟩ := ih (e ++ [f])
    exact ⟨t, Relation.ReflTransGen.head (FlowStep.next e f r) hreach, hdone,
      by simpa using hemit⟩

/-- C8: a pending write-flow allocation cancelled before any frame is queued
has emitted no frame (and a cancelled allocation never has); once the first
frame has been queued (the flow is emitting), no continuation can reach the
cancelled state, and the sequence always can and only does run to completion,
ending with every frame of the allocation emitted in order. -/
theorem writeflow_cancel_only_before_first_frame (frames : List CanFrame)
    (s : FlowState)
    (hreach : Relation.ReflTransGen FlowStep (initFlow frames) s) :
    (s.phase = .cancelled → s.emitted = [])
    ∧ (s.phase = .emitting →
        ∀ t, Relation.ReflTransGen FlowStep s t → t.phase ≠ .cancelled)
    ∧ (s.phase = .emitting →
        ∃ t, Relation.ReflTransGen FlowStep s t
          ∧ t.phase = .done ∧ t.emitted = frames) := by
  obtain ⟨hinv1, hinv2, _⟩ := flow_reach_invariant frames s hreach
  refine ⟨fun hc => hinv2 (Or.inr hc), ?_, ?_⟩
  · intro hs t ht hc
    rcases flow_emitting_no_cancel s t ht (Or.inl hs) with h | h <;>
      rw [hc] at h <;> exact WritePhase.noConfusion h
  · intro hs
    obtain ⟨t, hr, hdone, hemit⟩ := flow_emitting_completes s.emitted s.remaining
    have hss : s = ⟨.emitting, s.emitted, s.remaining⟩ := by
      cases s; simp_all
    exact ⟨t, hss ▸ hr, hdone, by rw [hemit, hinv1]⟩

/-- Witness for `writeflow_cancel_only_before_first_frame`: a one-frame
allocation cancelled immediately after allocation has emitted nothing. -/
theorem writeflow_cancel_only_before_first_frame_witness :
    (FlowState.mk .cancelled [] [⟨0x195B432D, [0xAA]⟩]).emitted = [] :=
  (writeflow_cancel_only_before_first_frame [⟨0x195B432D, [0xAA]⟩]
      ⟨.cancelled, [], [⟨0x195B432D, [0xAA]⟩]⟩
      (Relation.ReflTransGen.single (FlowStep.cancel [] [⟨0x195B432D, [0xAA]⟩]))).1
    rfl

/-! ## Hub command-line harness

`parse_args`/`usage` of `applications/js_hub/targets/js.emscripten/main.cxx`.
`getopt` is called with option string `"hp:d:n:a:s:f:c:"`; the switch handles
`h` (print usage, `exit(1)`), `d` (store `optarg` in `device_path`), `p`
(`port = atoi(optarg)`), and routes everything else — the accepted-but-unused
letters `n a s f c` as well as `getopt`'s unknown-option result — to the
default branch, which prints "Unknown option" and `usage()`, i.e. `exit(1)`. -/

/-- One option as the `getopt` loop delivers it to the switch in `parse_args`:
`h`, `d optarg`, `p optarg` (the `atoi` result of the argument), or any other
reported character. -/
inductive CliOpt where
  | optH
  | optD (arg : String)
  | optP (value : Int)
  | optOther (c : Char)
  deriving DecidableEq, Repr

/-- The globals `port` and `device_path` of `main.cxx`. -/
structure CliState where
  port : Int
  devicePath : Option String
  deriving DecidableEq, Repr

/-- The initial values: `int port = 12021; const char *device_path = nullptr`. -/
def initCliState : CliState := ⟨12021, none⟩

/-- `parse_args`: fold the option stream through the switch; `usage()` ends
the process with exit code 1, every other branch just updates the globals. -/
def parseArgs : List CliOpt → CliState → Except Nat CliState
  | [], st => .ok st
  | .optH :: _, _ => .error 1
  | .optD a :: rest, st => parseArgs rest { st with devicePath := some a }
  | .optP v :: rest, st => parseArgs rest { st with port := v }
  | .optOther _ :: _, _ => .error 1

theorem parseArgs_port_default (opts : List CliOpt)
    (hnp : ∀ v, CliOpt.optP v ∉ opts) :
    ∀ st st', parseArgs opts st = .ok st' → st'.port = st.port := by
  induction opts with
  | nil =>
    intro st st' h
    simp only [parseArgs, Except.ok.injEq] at h
    rw [← h]
  | cons o rest ih =>
    intro st st' h
    cases o with
    | optH => simp [parseArgs] at h
    | optD a =>
      simp only [parseArgs] at h
      simpa using ih (fun v hv => hnp v (by simp [hv])) _ st' h
    | optP v => exact absurd (by simp) (hnp v)
    | optOther c => simp [parseArgs] at h

/-- C9: the hub CLI exits with code 1 on `-h` and on any option other than
`-p`/`-d` (unknown options and the unused accepted letters alike); with no
`-p` option the TCP listen port keeps its default 12021; `-d` stores the
optional local CAN device path; and a run whose options are only `-p`/`-d`
settings never exits with an error (it proceeds into the non-returning hub
loop). -/
theorem cli_option_handling (rest opts : List CliOpt) (st : CliState)
    (a : String) (v : Int) (c : Char) (st' : CliState)
    (hnp : ∀ w, CliOpt.optP w ∉ opts) (hok : parseArgs opts initCliState = .ok st') :
    parseArgs (.optH :: rest) st = .error 1
    ∧ parseArgs (.optOther c :: rest) st = .error 1
    ∧ initCliState.port = 12021
    ∧ st'.port = 12021
    ∧ parseArgs (.optD a :: rest) st = parseArgs rest { st with devicePath := some a }
    ∧ parseArgs (.optP v :: rest) st = parseArgs rest { st with port := v }
    ∧ (∀ ds : List (Int ⊕ String),
        (parseArgs (ds.map (fun d => Sum.elim CliOpt.optP CliOpt.optD d)) st).isOk) := by
  refine ⟨rfl, rfl, rfl, parseArgs_port_default opts hnp initCliState st' hok,
    rfl, rfl, ?_⟩
  intro ds
  induction ds generalizing st with
  | nil => rfl
  | cons d rest ihd =>
    cases d with
    | inl v => exact ihd _
    | inr a => exact ihd _

/-- Witness for `cli_option_handling`: a run with only `-d /dev/ttyUSB0`
keeps the default port and exits on `-h`. -/
theorem cli_option_handling_witness :
    (∀ w, CliOpt.optP w ∉ [CliOpt.optD "/dev/ttyUSB0"])
    ∧ parseArgs [CliOpt.optD "/dev/ttyUSB0"] initCliState
        = .ok ⟨12021, some "/dev/ttyUSB0"⟩
    ∧ parseArgs [CliOpt.optH] initCliState = .error 1 :=
  ⟨fun w => by simp, rfl,
   (cli_option_handling [] [CliOpt.optD "/dev/ttyUSB0"] initCliState
      "/dev/ttyUSB0" 0 'x' ⟨12021, some "/dev/ttyUSB0"⟩
      (fun w => by simp) rfl).1⟩

/-! ## CAN device driver (`freertos_drivers/arduino/Can.hxx`)

`Can::read`/`Can::write` wrap a `DeviceBuffer<can_frame>` pair inside a
critical section; neither blocks.  `DeviceBuffer` itself is not in the
snapshot and is modelled from its use: a bounded FIFO whose `put` appends
when there is space and otherwise accepts nothing, whose `get` pops the
oldest entry when one is pending, and whose `space`/`pending` report the
free and used counts. -/

/-- Modelled from the spec: `DeviceBuffer<can_frame>` as a bounded FIFO. -/
structure DeviceBuffer where
  items : List CanFrame
  capacity : Nat
  deriving DecidableEq, Repr

/-- Free slots in the buffer (`txBuf->space()`). -/
def DeviceBuffer.space (b : DeviceBuffer) : Nat := b.capacity - b.items.length

/-- Entries waiting in the buffer (`rxBuf->pending()`). -/
def DeviceBuffer.pending (b : DeviceBuffer) : Nat := b.items.length

/-- `DeviceBuffer::put(frame, 1)`: append when there is space; returns the
number of items written (1 or 0) and the new buffer. -/
def DeviceBuffer.put (b : DeviceBuffer) (f : CanFrame) : Nat × DeviceBuffer :=
  if b.items.length < b.capacity then (1, ⟨b.items ++ [f], b.capacity⟩) else (0, b)

/-- `DeviceBuffer::get(frame, 1)`: pop the oldest entry when one exists;
returns the number of items read, the new buffer and the frame read. -/
def DeviceBuffer.get (b : DeviceBuffer) : Nat × DeviceBuffer × Option CanFrame :=
  match b.items with
  | [] => (0, b, none)
  | x :: xs => (1, ⟨xs, b.capacity⟩, some x)

/-- The driver state: transmit and receive buffers. -/
structure CanDev where
  txBuf : DeviceBuffer
  rxBuf : DeviceBuffer
  deriving DecidableEq, Repr

/-- Outcome of `Can::write`: the return value, the new driver state, and
whether the transmit hook `tx_msg()` was invoked. -/
structure WriteOutcome where
  ret : Nat
  dev : CanDev
  txMsgCalled : Bool
  deriving DecidableEq, Repr

/-- `Can::write(frame)`: `ret = txBuf->put(frame, 1); if (ret) tx_msg();
return ret;` — a total function, never blocking. -/
def CanDev.write (d : CanDev) (f : CanFrame) : WriteOutcome :=
  let (ret, tx) := d.txBuf.put f
  ⟨ret, ⟨tx, d.rxBuf⟩, ret != 0⟩

/-- Outcome of `Can::read`: the return value, the new driver state, and the
frame read if any. -/
structure ReadOutcome where
  ret : Nat
  dev : CanDev
  frame : Option CanFrame
  deriving DecidableEq, Repr

/-- `Can::read(frame)`: `return rxBuf->get(frame, 1);` — a total function,
never blocking. -/
def CanDev.read (d : CanDev) : ReadOutcome :=
  let (ret, rx, f) := d.rxBuf.get
  ⟨ret, ⟨d.txBuf, rx⟩, f⟩

/-- C10: `write` returns 1 and invokes `tx_msg()` exactly when the frame was
appended to the transmit buffer, and returns 0 with the state unchanged and
`tx_msg()` not invoked when the buffer has no space; `read` returns 1 with the
oldest received frame exactly when one is pending and 0 with the state
unchanged otherwise.  Both are total functions of the state: neither blocks. -/
theorem can_driver_rw_contract (d : CanDev) (f : CanFrame) :
    (0 < d.txBuf.space →
        (d.write f).ret = 1 ∧ (d.write f).txMsgCalled = true
        ∧ (d.write f).dev.txBuf.items = d.txBuf.items ++ [f]
        ∧ (d.write f).dev.rxBuf = d.rxBuf)
    ∧ (d.txBuf.space = 0 →
        (d.write f).ret = 0 ∧ (d.write f).txMsgCalled = false
        ∧ (d.write f).dev = d)
    ∧ (0 < d.rxBuf.pending →
        d.read.ret = 1 ∧ d.read.frame = d.rxBuf.items.head?
        ∧ d.read.dev.rxBuf.items = d.rxBuf.items.tail
        ∧ d.read.dev.txBuf = d.txBuf)
    ∧ (d.rxBuf.pending = 0 → d.read.ret = 0 ∧ d.read.frame = none
        ∧ d.read.dev = d) := by
  refine ⟨?_, ?_, ?_, ?_⟩
  · intro hs
    have hlt : d.txBuf.items.length < d.txBuf.capacity := by
      rw [DeviceBuffer.space] at hs
      omega
    simp [CanDev.write, DeviceBuffer.put, hlt]
  · intro hs
    have hge : ¬ d.txBuf.items.length < d.txBuf.capacity := by
      rw [DeviceBuffer.space] at hs
      omega
    simp [CanDev.write, DeviceBuffer.put, hge]
  · intro hp
    obtain ⟨tx, ⟨rxitems, rxcap⟩⟩ := d
    cases rxitems with
    | nil => simp [DeviceBuffer.pending] at hp
    | cons x xs => simp [CanDev.read, DeviceBuffer.get]
  · intro hp
    obtain ⟨tx, ⟨rxitems, rxcap⟩⟩ := d
    cases rxitems with
    | nil => simp [CanDev.read, DeviceBuffer.get]
    | cons x xs => simp [DeviceBuffer.pending] at hp

/-- Witness for `can_driver_rw_contract`: a one-slot empty transmit buffer
accepts a frame and fires `tx_msg()`. -/
theorem can_driver_rw_contract_witness :
    0 < (CanDev.mk ⟨[], 1⟩ ⟨[], 1⟩).txBuf.space
    ∧ ((CanDev.mk ⟨[], 1⟩ ⟨[], 1⟩).write ⟨0x195B432D, [0xAA]⟩).ret = 1
    ∧ ((CanDev.mk ⟨[], 1⟩ ⟨[], 1⟩).write ⟨0x195B432D, [0xAA]⟩).txMsgCalled = true :=
  ⟨by decide,
   ((can_driver_rw_contract (CanDev.mk ⟨[], 1⟩ ⟨[], 1⟩) ⟨0x195B432D, [0xAA]⟩).1
      (by decide)).1,
   ((can_driver_rw_contract (CanDev.mk ⟨[], 1⟩ ⟨[], 1⟩) ⟨0x195B432D, [0xAA]⟩).1
      (by decide)).2.1⟩

end OpenMRN
